import Mathlib

/-!
Shallow embedding of the oracle-solana string-anchoring service
(`app/server.ts`, served through the Anchor IDL in
`target/types/my_first_app.ts`, with the on-chain program's tests in
`tests/my-first-app.ts`).  Byte strings are modelled as `List Nat` with
entries below 256; machine arithmetic is modelled with explicit `% 2 ^ w`.
-/

namespace OracleSolana

/-- FNV-1a 64-bit prime, the constant `FNV_PRIME` of `md5Hash` in `app/server.ts`. -/
def FNV_PRIME : Nat := 0x100000001b3

/-- FNV-1a 64-bit offset basis, the initial accumulator of `md5Hash` in `app/server.ts`. -/
def FNV_OFFSET_BASIS : Nat := 0xcbf29ce484222325

/-- One byte step of the fingerprint algorithm exactly as section 4.1 of the
specification states it: a true 64-bit accumulator (xor the byte, multiply by
the FNV prime mod 2^64), then mix the byte and accumulator bytes 1, 2, 3 into
the 16-byte buffer at positions idx, idx+1, idx+3, idx+7 (mod 16). -/
def specStep (st : Nat × List Nat) (b : Nat) : Nat × List Nat :=
  let acc := (Nat.xor st.1 b * FNV_PRIME) % 2 ^ 64
  let buf := st.2
  let idx := acc % 16
  let buf1 := buf.set idx ((buf.getD idx 0 + b) % 256)
  let buf2 := buf1.set ((idx + 1) % 16) (Nat.xor (buf1.getD ((idx + 1) % 16) 0) (acc / 2 ^ 8 % 256))
  let buf3 := buf2.set ((idx + 3) % 16) (Nat.xor (buf2.getD ((idx + 3) % 16) 0) (acc / 2 ^ 16 % 256))
  let buf4 := buf3.set ((idx + 7) % 16) (Nat.xor (buf3.getD ((idx + 7) % 16) 0) (acc / 2 ^ 24 % 256))
  (acc, buf4)

/-- The fingerprint algorithm exactly as the specification (section 4.1)
describes it: buffer initialised to 0..15, accumulator initialised to the
FNV offset basis, one `specStep` per input byte. -/
def specFingerprint (bytes : List Nat) : List Nat :=
  (bytes.foldl specStep (FNV_OFFSET_BASIS, List.range 16)).2

/-- Exponent of the unit in the last place of the IEEE-754 binary64 value
nearest to `v`, for `v < 2 ^ 64`: 0 below 2^53, and `k - 52` for `v` in
`[2 ^ k, 2 ^ (k + 1))` with `k ≥ 53`. -/
def floatUlpExp (v : Nat) : Nat :=
  if v < 2 ^ 53 then 0
  else if v < 2 ^ 54 then 1
  else if v < 2 ^ 55 then 2
  else if v < 2 ^ 56 then 3
  else if v < 2 ^ 57 then 4
  else if v < 2 ^ 58 then 5
  else if v < 2 ^ 59 then 6
  else if v < 2 ^ 60 then 7
  else if v < 2 ^ 61 then 8
  else if v < 2 ^ 62 then 9
  else if v < 2 ^ 63 then 10
  else 11

/-- Round a natural number below `2 ^ 64` to the nearest IEEE-754 binary64
value, ties to even: the value of the JavaScript conversion `Number(v)`.
This is where `md5Hash` in `app/server.ts` silently loses accumulator bits. -/
def roundFloat (v : Nat) : Nat :=
  let m := 2 ^ floatUlpExp v
  let q := v / m
  let r := v % m
  if 2 * r > m ∨ (2 * r = m ∧ q % 2 = 1) then (q + 1) * m else q * m

/-- One loop iteration of `md5Hash` from `app/server.ts` under JavaScript
number semantics: `hash ^= byte` coerces the accumulator through ToInt32
(keeping only the low 32 bits, reinterpreted as signed), the BigInt product
with the FNV prime is masked to 64 bits, and `Number(...)` rounds the result
to binary64; `hash % 16` and the shifted bytes are then taken from that
rounded value. -/
def md5Step (st : Nat × List Nat) (b : Nat) : Nat × List Nat :=
  let pat := Nat.xor (st.1 % 2 ^ 32) b
  let x : Int := if pat < 2 ^ 31 then (pat : Int) else (pat : Int) - 2 ^ 32
  let v := roundFloat ((x * (FNV_PRIME : Int)) % (2 ^ 64 : Int)).toNat
  let buf := st.2
  let idx := v % 16
  let buf1 := buf.set idx ((buf.getD idx 0 + b) % 256)
  let buf2 := buf1.set ((idx + 1) % 16) (Nat.xor (buf1.getD ((idx + 1) % 16) 0) (v / 2 ^ 8 % 256))
  let buf3 := buf2.set ((idx + 3) % 16) (Nat.xor (buf2.getD ((idx + 3) % 16) 0) (v / 2 ^ 16 % 256))
  let buf4 := buf3.set ((idx + 7) % 16) (Nat.xor (buf3.getD ((idx + 7) % 16) 0) (v / 2 ^ 24 % 256))
  (v, buf4)

/-- `md5Hash` from `app/server.ts` (the service's fingerprint function), with
JavaScript number semantics made explicit: the initial constant is itself
first rounded to binary64 by the numeric literal. -/
def md5Hash (bytes : List Nat) : List Nat :=
  (bytes.foldl md5Step (roundFloat FNV_OFFSET_BASIS, List.range 16)).2

/-- Value of one base64 alphabet character (ASCII code), `none` for characters
outside the alphabet.  Models the table of Node's lenient base64 decoder used
by `Buffer.from(data, 'base64')` in the store route of `app/server.ts`. -/
def b64Val (c : Nat) : Option Nat :=
  if 65 ≤ c ∧ c ≤ 90 then some (c - 65)
  else if 97 ≤ c ∧ c ≤ 122 then some (c - 97 + 26)
  else if 48 ≤ c ∧ c ≤ 57 then some (c - 48 + 52)
  else if c = 43 then some 62
  else if c = 47 then some 63
  else none

/-- Keep the 6-bit values of the alphabet characters, dropping other
characters and stopping at the first `=` padding character (ASCII 61), the
way Node's lenient base64 decoder does. -/
def b64Filter : List Nat → List Nat
  | [] => []
  | c :: cs =>
    if c = 61 then []
    else
      match b64Val c with
      | some v => v :: b64Filter cs
      | none => b64Filter cs

/-- Reassemble bytes from 6-bit groups: each full group of four values gives
three bytes, a trailing pair gives one byte and a trailing triple two bytes. -/
def b64Groups : List Nat → List Nat
  | a :: b :: c :: d :: rest =>
    (a * 4 + b / 16) :: ((b % 16) * 16 + c / 4) :: ((c % 4) * 64 + d) :: b64Groups rest
  | [a, b] => [a * 4 + b / 16]
  | [a, b, c] => [a * 4 + b / 16, (b % 16) * 16 + c / 4]
  | _ => []

/-- `Buffer.from(data, 'base64')` as called by the store route of
`app/server.ts` on the submitted `data` field (Node's lenient decoder on
ASCII input). -/
def b64decode (s : List Nat) : List Nat := b64Groups (b64Filter s)

/-- Little-endian value of a byte list (byte 0 least significant). -/
def leVal (bs : List Nat) : Nat := bs.foldr (fun b acc => b + 256 * acc) 0

/-- Little-endian encoding of a 32-bit value, as Anchor's borsh layout writes
`string_length`. -/
def u32le (n : Nat) : List Nat :=
  [n % 256, n / 256 % 256, n / 65536 % 256, n / 16777216 % 256]

/-- Little-endian encoding of a 64-bit value, as the record layout stores
`cost_lamports`. -/
def u64le (n : Nat) : List Nat :=
  [n % 256, n / 2 ^ 8 % 256, n / 2 ^ 16 % 256, n / 2 ^ 24 % 256,
   n / 2 ^ 32 % 256, n / 2 ^ 40 % 256, n / 2 ^ 48 % 256, n / 2 ^ 56 % 256]

/-- Little-endian two's-complement encoding of a signed 64-bit value, as the
record layout stores `timestamp`. -/
def i64le (t : Int) : List Nat := u64le ((t % (2 ^ 64 : Int)).toNat)

/-- `accountData.readUInt32LE(off)` of `app/server.ts` (in-range reads). -/
def readU32LE (d : List Nat) (off : Nat) : Nat := leVal ((d.drop off).take 4)

/-- `accountData.readBigUInt64LE(off)` of `app/server.ts` (in-range reads). -/
def readU64LE (d : List Nat) (off : Nat) : Nat := leVal ((d.drop off).take 8)

/-- `Number(accountData.readBigInt64LE(off))` of `app/server.ts` (in-range
reads): the unsigned 64-bit read reinterpreted as two's complement. -/
def readI64LE (d : List Nat) (off : Nat) : Int :=
  let u := readU64LE d off
  if u < 2 ^ 63 then (u : Int) else (u : Int) - 2 ^ 64

/-- Account discriminator of the `stringRecord` account, from the IDL in
`target/types/my_first_app.ts`. -/
def stringRecordDiscriminator : List Nat := [72, 85, 57, 84, 139, 0, 181, 63]

/-- The persisted `stringRecord` account of the IDL in
`target/types/my_first_app.ts`: original string, 16-byte signature,
timestamp, 32-byte owner, cost in lamports. -/
structure StringRecord where
  originalString : List Nat
  signature : List Nat
  timestamp : Int
  owner : List Nat
  costLamports : Nat
deriving DecidableEq

/-- Binary layout of a persisted record, as described by the parsing comment
in the store route of `app/server.ts`: discriminator (8) + string length (4,
u32 LE) + string + signature (16) + timestamp (8, i64 LE) + owner (32) +
cost (8, u64 LE). -/
def encodeRecord (r : StringRecord) : List Nat :=
  stringRecordDiscriminator ++ (u32le r.originalString.length ++ (r.originalString ++
    (r.signature ++ (i64le r.timestamp ++ (r.owner ++ u64le r.costLamports)))))

/-- Decoding of an account buffer by the `/api/record/:address` route of
`app/server.ts`: reject if the total length is below 8+4+16+8+32+8, then
read the string length and reject if it exceeds 1000 or if the string plus
header does not fit before the 64 trailing bytes; otherwise return the fully
populated record.  `none` models the CorruptRecord (400) response. -/
def decodeRecordByAddress (d : List Nat) : Option StringRecord :=
  if d.length < 8 + 4 + 16 + 8 + 32 + 8 then none
  else
    let strLen := readU32LE d 8
    if strLen > 1000 ∨ strLen + 12 > d.length - 64 then none
    else
      some
        { originalString := (d.drop 12).take strLen
          signature := (d.drop (12 + strLen)).take 16
          timestamp := readI64LE d (12 + strLen + 16)
          owner := (d.drop (12 + strLen + 24)).take 32
          costLamports := readU64LE d (12 + strLen + 56) }

/-- A successful hit of the query-by-string route, with the fields the
response of `app/server.ts` carries. -/
structure QueryFound where
  recordAddress : Nat
  timestamp : Int
  owner : List Nat
  costLamports : Nat
  originalString : List Nat
deriving DecidableEq

/-- Result of the query-by-string route: `notFound` is the exists=false
response, `found` the exists=true response. -/
inductive QueryResult where
  | notFound
  | found (r : QueryFound)
deriving DecidableEq

/-- The full-scan loop of the `/api/query/:data` route of `app/server.ts`
over the program accounts: skip accounts shorter than 76 bytes, skip when
the string length exceeds 200 or does not fit in the buffer, compare the
16 bytes after the string against the computed fingerprint (Buffer.slice
clamps, so a truncated signature never matches a 16-byte one), and on a
match read the remaining fields — `none` models the route's 500 response
when those trailing reads run past the end of the buffer. -/
def scanAccounts (sig : List Nat) : List (Nat × List Nat) → Option QueryResult
  | [] => some .notFound
  | (pk, d) :: rest =>
    if d.length < 8 + 4 + 16 + 8 + 32 + 8 then scanAccounts sig rest
    else
      let strLen := readU32LE d 8
      if strLen > 200 ∨ strLen + 12 > d.length then scanAccounts sig rest
      else
        if (d.drop (12 + strLen)).take 16 = sig then
          if 12 + strLen + 64 ≤ d.length then
            some (.found
              { recordAddress := pk
                timestamp := readI64LE d (12 + strLen + 16)
                owner := (d.drop (12 + strLen + 24)).take 32
                costLamports := readU64LE d (12 + strLen + 56)
                originalString := (d.drop 12).take strLen })
          else none
        else scanAccounts sig rest

/-- The `/api/query/:data` route of `app/server.ts` on the URI-decoded query
string `s`: compute `md5Hash s`, and if its hex is not in the
`uploadedSignatures` cache answer exists=false immediately; only on a cache
hit scan the program accounts.  The cache is modelled as the list of
signature byte strings (hex encoding is injective, so membership agrees with
the source's hex-string set). -/
def apiQuery (s : List Nat) (uploadedSignatures : List (List Nat))
    (accounts : List (Nat × List Nat)) : Option QueryResult :=
  let sig := md5Hash s
  if sig ∈ uploadedSignatures then scanAccounts sig accounts else some .notFound

/-- Error taxonomy surfaced by the store path: the server's pre-check and the
`ERROR_CODES` mapping of on-chain errors in `app/server.ts` (codes 1001,
1002, 1003). -/
inductive StoreErr where
  | alreadyExists
  | emptyString
  | stringTooLong
deriving DecidableEq

instance {ε α : Type} [DecidableEq ε] [DecidableEq α] : DecidableEq (Except ε α) := fun a b =>
  match a, b with
  | .error e, .error f => if h : e = f then isTrue (h ▸ rfl) else isFalse (by simp [h])
  | .error _, .ok _ => isFalse (by simp)
  | .ok _, .error _ => isFalse (by simp)
  | .ok x, .ok y => if h : x = y then isTrue (h ▸ rfl) else isFalse (by simp [h])

/-- Process-wide mutable state of `app/server.ts`: the `uploadedSignatures`
set (as signature byte strings) together with the external ledger, modelled
as an association list from account address to raw account bytes. -/
structure ServerState where
  uploadedSignatures : List (List Nat)
  ledger : List (Nat × List Nat)
deriving DecidableEq

/-- Point lookup in the modelled ledger. -/
def ledgerLookup (l : List (Nat × List Nat)) (a : Nat) : Option (List Nat) :=
  (l.find? fun p => p.1 = a).map fun p => p.2

/-- Modelled from the spec: the `storeString` instruction of the on-chain
program (`programs/my-first-app/src/lib.rs` is not under `src/`; only its
IDL, tests and callers are).  Per sections 4.5, 6 and 7 of the
specification and the declared IDL errors, it validates the input (empty →
EmptyString, more than 200 bytes → StringTooLong) and then performs an
atomic create-if-absent of the encoded record at the client-provided record
address (occupied → AlreadyExists); the persisted signature is the
specification's fingerprint of the input (section 4.1), the record carrying
timestamp, owner and fee. -/
def chainStoreString (recordAddr : Nat) (input : List Nat) (now : Int)
    (ownerPk : List Nat) (fee : Nat) (ledger : List (Nat × List Nat)) :
    Except StoreErr (List (Nat × List Nat) × StringRecord) :=
  if input.length = 0 then .error .emptyString
  else if input.length > 200 then .error .stringTooLong
  else if (ledgerLookup ledger recordAddr).isSome then .error .alreadyExists
  else
    let r : StringRecord :=
      { originalString := input, signature := specFingerprint input,
        timestamp := now, owner := ownerPk, costLamports := fee }
    .ok ((recordAddr, encodeRecord r) :: ledger, r)

/-- Success payload of the store route (`StoreResult` in `app/server.ts`):
signature parsed back from the fetched account bytes, the generated record
address, parsed cost and timestamp, and `originalString` set to the decoded
input. -/
structure StoreResultData where
  signature : List Nat
  recordAddress : Nat
  costLamports : Nat
  timestamp : Int
  originalString : List Nat
deriving DecidableEq

/-- Outcome of one request to the store route: the HTTP-level result, the
process state afterwards, and whether the ledger was contacted at all. -/
structure StoreOutcome where
  result : Except StoreErr StoreResultData
  state : ServerState
  ledgerTouched : Bool
deriving DecidableEq

/-- The `POST /api/store` route of `app/server.ts` on the raw `data` field
(ASCII bytes): reject with StringTooLong when the raw field itself is longer
than 200 units — the only validation before the ledger is contacted; then
base64-decode the field, generate a fresh keypair (`freshAddr`, the external
randomness of `Keypair.generate()`), submit `storeString` with the decoded
input, and on success parse the fetched account bytes field by field.  The
response's `originalString` is the decoded data; the route never inserts into
`uploadedSignatures`. -/
def apiStore (data : List Nat) (freshAddr : Nat) (now : Int)
    (ownerPk : List Nat) (fee : Nat) (st : ServerState) : StoreOutcome :=
  if data.length > 200 then
    { result := .error .stringTooLong, state := st, ledgerTouched := false }
  else
    let decoded := b64decode data
    match chainStoreString freshAddr decoded now ownerPk fee st.ledger with
    | .error e => { result := .error e, state := st, ledgerTouched := true }
    | .ok (ledger2, _) =>
      let d := (ledgerLookup ledger2 freshAddr).getD []
      let strLen := readU32LE d 8
      { result := .ok
          { signature := (d.drop (12 + strLen)).take 16
            recordAddress := freshAddr
            costLamports := readU64LE d (12 + strLen + 56)
            timestamp := readI64LE d (12 + strLen + 16)
            originalString := decoded }
        state := { st with ledger := ledger2 }
        ledgerTouched := true }

/-! Helper lemmas about the embedded definitions. -/

lemma specStep_length (st : Nat × List Nat) (b : Nat) :
    ((specStep st b).2).length = st.2.length := by
  simp [specStep, List.length_set]

lemma foldl_specStep_length (l : List Nat) :
    ∀ st : Nat × List Nat, ((l.foldl specStep st).2).length = st.2.length := by
  induction l with
  | nil => intro st; rfl
  | cons a as ih => intro st; rw [List.foldl_cons, ih, specStep_length]

lemma specFingerprint_length (s : List Nat) : (specFingerprint s).length = 16 := by
  unfold specFingerprint
  rw [foldl_specStep_length]
  simp

lemma md5Step_length (st : Nat × List Nat) (b : Nat) :
    ((md5Step st b).2).length = st.2.length := by
  simp [md5Step, List.length_set]

lemma foldl_md5Step_length (l : List Nat) :
    ∀ st : Nat × List Nat, ((l.foldl md5Step st).2).length = st.2.length := by
  induction l with
  | nil => intro st; rfl
  | cons a as ih => intro st; rw [List.foldl_cons, ih, md5Step_length]

lemma md5Hash_length (s : List Nat) : (md5Hash s).length = 16 := by
  unfold md5Hash
  rw [foldl_md5Step_length]
  simp

lemma u32le_leVal (n : Nat) (h : n < 2 ^ 32) : leVal (u32le n) = n := by
  have hv : leVal (u32le n) = n % 256 + 256 * (n / 256 % 256 + 256 *
      (n / 65536 % 256 + 256 * (n / 16777216 % 256 + 256 * 0))) := rfl
  omega

lemma u64le_leVal (n : Nat) (h : n < 2 ^ 64) : leVal (u64le n) = n := by
  have hv : leVal (u64le n) = n % 256 + 256 * (n / 2 ^ 8 % 256 + 256 *
      (n / 2 ^ 16 % 256 + 256 * (n / 2 ^ 24 % 256 + 256 * (n / 2 ^ 32 % 256 + 256 *
      (n / 2 ^ 40 % 256 + 256 * (n / 2 ^ 48 % 256 + 256 * (n / 2 ^ 56 % 256 + 256 * 0))))))) := rfl
  omega

lemma encodeRecord_drop12 (r : StringRecord) :
    (encodeRecord r).drop 12 = r.originalString ++
      (r.signature ++ (i64le r.timestamp ++ (r.owner ++ u64le r.costLamports))) := rfl

lemma readU32LE_encodeRecord (r : StringRecord) (h : r.originalString.length < 2 ^ 32) :
    readU32LE (encodeRecord r) 8 = r.originalString.length := by
  have h1 : (encodeRecord r).drop 8 = u32le r.originalString.length ++ (r.originalString ++
      (r.signature ++ (i64le r.timestamp ++ (r.owner ++ u64le r.costLamports)))) := rfl
  have h2 : ((encodeRecord r).drop 8).take 4 = u32le r.originalString.length := by
    rw [h1]
    exact List.take_left' rfl
  show leVal (((encodeRecord r).drop 8).take 4) = _
  rw [h2]
  exact u32le_leVal _ h

lemma encodeRecord_drop_str (r : StringRecord) :
    (encodeRecord r).drop (12 + r.originalString.length) =
      r.signature ++ (i64le r.timestamp ++ (r.owner ++ u64le r.costLamports)) := by
  rw [← List.drop_drop, encodeRecord_drop12]
  exact List.drop_left _ _

lemma parse_str (r : StringRecord) :
    ((encodeRecord r).drop 12).take r.originalString.length = r.originalString := by
  rw [encodeRecord_drop12]
  exact List.take_left _ _

lemma parse_sig (r : StringRecord) (hsig : r.signature.length = 16) :
    ((encodeRecord r).drop (12 + r.originalString.length)).take 16 = r.signature := by
  rw [encodeRecord_drop_str]
  exact List.take_left' hsig

lemma encodeRecord_drop_ts (r : StringRecord) (hsig : r.signature.length = 16) :
    (encodeRecord r).drop (12 + r.originalString.length + 16) =
      i64le r.timestamp ++ (r.owner ++ u64le r.costLamports) := by
  rw [← List.drop_drop, encodeRecord_drop_str]
  exact List.drop_left' hsig

lemma encodeRecord_drop_owner (r : StringRecord) (hsig : r.signature.length = 16) :
    (encodeRecord r).drop (12 + r.originalString.length + 24) =
      r.owner ++ u64le r.costLamports := by
  have h24 : 12 + r.originalString.length + 24 = 12 + r.originalString.length + 16 + 8 := by omega
  rw [h24, ← List.drop_drop, encodeRecord_drop_ts r hsig]
  exact List.drop_left' rfl

lemma encodeRecord_drop_cost (r : StringRecord) (hsig : r.signature.length = 16)
    (how : r.owner.length = 32) :
    (encodeRecord r).drop (12 + r.originalString.length + 56) = u64le r.costLamports := by
  have h56 : 12 + r.originalString.length + 56 = 12 + r.originalString.length + 24 + 32 := by omega
  rw [h56, ← List.drop_drop, encodeRecord_drop_owner r hsig]
  exact List.drop_left' how

lemma parse_ts (r : StringRecord) (hsig : r.signature.length = 16)
    (h1 : -(2 ^ 63) ≤ r.timestamp) (h2 : r.timestamp < 2 ^ 63) :
    readI64LE (encodeRecord r) (12 + r.originalString.length + 16) = r.timestamp := by
  have hmod1 : 0 ≤ r.timestamp % (2 ^ 64 : Int) := Int.emod_nonneg _ (by norm_num)
  have hmod2 : r.timestamp % (2 ^ 64 : Int) < 2 ^ 64 := Int.emod_lt_of_pos _ (by norm_num)
  have hu : readU64LE (encodeRecord r) (12 + r.originalString.length + 16) =
      (r.timestamp % (2 ^ 64 : Int)).toNat := by
    show leVal (((encodeRecord r).drop (12 + r.originalString.length + 16)).take 8) = _
    rw [encodeRecord_drop_ts r hsig]
    rw [List.take_left' (show (i64le r.timestamp).length = 8 from rfl)]
    exact u64le_leVal _ (by omega)
  show (if readU64LE (encodeRecord r) (12 + r.originalString.length + 16) < 2 ^ 63
      then ((readU64LE (encodeRecord r) (12 + r.originalString.length + 16) : Nat) : Int)
      else ((readU64LE (encodeRecord r) (12 + r.originalString.length + 16) : Nat) : Int) - 2 ^ 64)
      = r.timestamp
  rw [hu]
  split <;> omega

lemma parse_owner (r : StringRecord) (hsig : r.signature.length = 16)
    (how : r.owner.length = 32) :
    ((encodeRecord r).drop (12 + r.originalString.length + 24)).take 32 = r.owner := by
  rw [encodeRecord_drop_owner r hsig]
  exact List.take_left' how

lemma parse_cost (r : StringRecord) (hsig : r.signature.length = 16)
    (how : r.owner.length = 32) (hc : r.costLamports < 2 ^ 64) :
    readU64LE (encodeRecord r) (12 + r.originalString.length + 56) = r.costLamports := by
  show leVal (((encodeRecord r).drop (12 + r.originalString.length + 56)).take 8) = _
  rw [encodeRecord_drop_cost r hsig how]
  rw [show (u64le r.costLamports).take 8 = u64le r.costLamports from rfl]
  exact u64le_leVal _ hc

lemma encodeRecord_length (r : StringRecord) :
    (encodeRecord r).length =
      12 + r.originalString.length + r.signature.length + 8 + r.owner.length + 8 := by
  simp [encodeRecord, stringRecordDiscriminator, u32le, i64le, u64le, List.length_append]
  omega

lemma ledgerLookup_cons_self (a : Nat) (x : List Nat) (L : List (Nat × List Nat)) :
    ledgerLookup ((a, x) :: L) a = some x := by
  unfold ledgerLookup
  rw [List.find?_cons_of_pos _ (by simp)]
  rfl

lemma ledgerLookup_cons_ne (a b : Nat) (x : List Nat) (L : List (Nat × List Nat))
    (h : b ≠ a) : ledgerLookup ((b, x) :: L) a = ledgerLookup L a := by
  unfold ledgerLookup
  rw [List.find?_cons_of_neg _ (by simp [h])]

lemma chainStoreString_ok (a : Nat) (input : List Nat) (now : Int) (pk : List Nat)
    (fee : Nat) (ledger : List (Nat × List Nat))
    (h2 : input ≠ []) (h3 : input.length ≤ 200) (h4 : ledgerLookup ledger a = none) :
    chainStoreString a input now pk fee ledger =
      .ok ((a, encodeRecord ⟨input, specFingerprint input, now, pk, fee⟩) :: ledger,
        ⟨input, specFingerprint input, now, pk, fee⟩) := by
  have hn2 : ¬ input.length = 0 := fun hc => h2 (List.length_eq_zero.mp hc)
  have hn3 : ¬ input.length > 200 := by omega
  unfold chainStoreString
  rw [if_neg hn2, if_neg hn3, if_neg (by simp [h4])]

lemma apiStore_ok (data : List Nat) (a : Nat) (now : Int) (pk : List Nat) (fee : Nat)
    (st : ServerState)
    (h1 : data.length ≤ 200) (h2 : b64decode data ≠ []) (h3 : (b64decode data).length ≤ 200)
    (h4 : ledgerLookup st.ledger a = none) :
    ((apiStore data a now pk fee st).result.map fun r => r.recordAddress) = .ok a
    ∧ ((apiStore data a now pk fee st).result.map fun r => r.originalString) = .ok (b64decode data)
    ∧ (apiStore data a now pk fee st).state.uploadedSignatures = st.uploadedSignatures
    ∧ (apiStore data a now pk fee st).state.ledger =
        (a, encodeRecord ⟨b64decode data, specFingerprint (b64decode data), now, pk, fee⟩)
          :: st.ledger
    ∧ (apiStore data a now pk fee st).ledgerTouched = true := by
  have hn1 : ¬ data.length > 200 := by omega
  unfold apiStore
  rw [if_neg hn1]
  simp only [chainStoreString_ok a (b64decode data) now pk fee st.ledger h2 h3 h4]
  refine ⟨?_, ?_, ?_, ?_, ?_⟩ <;> trivial

/-! Claim theorems. -/

/-- Claim C1: the fingerprint function of the service was claimed to compute
exactly the specified algorithm (64-bit FNV accumulator with buffer mixing).
It does not: the JavaScript implementation coerces the accumulator through a
32-bit xor and a 53-bit-mantissa float conversion, so on the single byte
0x61 the code's `md5Hash` and the specified `specFingerprint` produce
different 16-byte buffers. -/
theorem c1_md5Hash_diverges_from_spec_algorithm :
    md5Hash [0x61] = [97, 5, 2, 254, 4, 5, 6, 130, 8, 9, 10, 11, 12, 13, 14, 15]
    ∧ specFingerprint [0x61] = [0, 1, 2, 133, 4, 5, 6, 7, 8, 9, 10, 11, 109, 225, 14, 14]
    ∧ md5Hash [0x61] ≠ specFingerprint [0x61] := by decide

/-- Claim C8: the fingerprint of the empty byte sequence is exactly the bytes
0..15 — the loop never executes and the buffer keeps its initialised state. -/
theorem c8_fingerprint_of_empty_is_identity_buffer :
    md5Hash [] = [0, 1, 2, 3, 4, 5, 6, 7, 8, 9, 10, 11, 12, 13, 14, 15] := by decide

/-- Claim C2: address derivation was claimed to be a deterministic, idempotent
function of the content, identical across two store attempts of the same
string.  The store route instead uses a freshly generated keypair as the
record address, so two stores of the same data with distinct fresh keypairs
succeed at two distinct addresses. -/
theorem c2_store_address_not_a_function_of_content
    (data : List Nat) (a₁ a₂ : Nat) (now : Int) (pk : List Nat) (fee : Nat) (st : ServerState)
    (h1 : data.length ≤ 200) (h2 : b64decode data ≠ []) (h3 : (b64decode data).length ≤ 200)
    (h4 : ledgerLookup st.ledger a₁ = none) (h5 : ledgerLookup st.ledger a₂ = none)
    (h6 : a₁ ≠ a₂) :
    ((apiStore data a₁ now pk fee st).result.map fun r => r.recordAddress) = .ok a₁
    ∧ ((apiStore data a₂ now pk fee
        (apiStore data a₁ now pk fee st).state).result.map fun r => r.recordAddress) = .ok a₂
    ∧ ((apiStore data a₁ now pk fee st).result.map fun r => r.recordAddress)
        ≠ ((apiStore data a₂ now pk fee
            (apiStore data a₁ now pk fee st).state).result.map fun r => r.recordAddress) := by
  obtain ⟨hr1, _, _, hl1, _⟩ := apiStore_ok data a₁ now pk fee st h1 h2 h3 h4
  have h5b : ledgerLookup (apiStore data a₁ now pk fee st).state.ledger a₂ = none := by
    rw [hl1, ledgerLookup_cons_ne _ _ _ _ h6]
    exact h5
  obtain ⟨hr2, _, _, _, _⟩ :=
    apiStore_ok data a₂ now pk fee (apiStore data a₁ now pk fee st).state h1 h2 h3 h5b
  refine ⟨hr1, hr2, ?_⟩
  rw [hr1, hr2]
  simp [h6]

/-- Witness for claim C2: storing the base64 input aGVsbG8= twice with fresh
addresses 1 and 2 yields record addresses 1 and 2, which differ. -/
theorem c2_witness :
    ((apiStore [97, 71, 86, 115, 98, 71, 56, 61] 1 0 (List.replicate 32 0) 5
        ⟨[], []⟩).result.map fun r => r.recordAddress) = .ok 1
    ∧ ((apiStore [97, 71, 86, 115, 98, 71, 56, 61] 2 0 (List.replicate 32 0) 5
        (apiStore [97, 71, 86, 115, 98, 71, 56, 61] 1 0 (List.replicate 32 0) 5
          ⟨[], []⟩).state).result.map fun r => r.recordAddress) = .ok 2
    ∧ ((apiStore [97, 71, 86, 115, 98, 71, 56, 61] 1 0 (List.replicate 32 0) 5
        ⟨[], []⟩).result.map fun r => r.recordAddress)
        ≠ ((apiStore [97, 71, 86, 115, 98, 71, 56, 61] 2 0 (List.replicate 32 0) 5
            (apiStore [97, 71, 86, 115, 98, 71, 56, 61] 1 0 (List.replicate 32 0) 5
              ⟨[], []⟩).state).result.map fun r => r.recordAddress) :=
  c2_store_address_not_a_function_of_content
    [97, 71, 86, 115, 98, 71, 56, 61] 1 2 0 (List.replicate 32 0) 5 ⟨[], []⟩
    (by decide) (by decide) (by decide) (by decide) (by decide) (by decide)

/-- Claim C3: storing the same valid string twice was claimed to yield a
success and then an AlreadyExists duplicate error.  Through the store route
each attempt writes at a freshly generated address, so both stores succeed
and the second never returns AlreadyExists. -/
theorem c3_duplicate_store_succeeds_twice
    (data : List Nat) (a₁ a₂ : Nat) (now : Int) (pk : List Nat) (fee : Nat) (st : ServerState)
    (h1 : data.length ≤ 200) (h2 : b64decode data ≠ []) (h3 : (b64decode data).length ≤ 200)
    (h4 : ledgerLookup st.ledger a₁ = none) (h5 : ledgerLookup st.ledger a₂ = none)
    (h6 : a₁ ≠ a₂) :
    ((apiStore data a₁ now pk fee st).result.map fun r => r.recordAddress) = .ok a₁
    ∧ ((apiStore data a₂ now pk fee
        (apiStore data a₁ now pk fee st).state).result.map fun r => r.recordAddress) = .ok a₂
    ∧ (apiStore data a₂ now pk fee
        (apiStore data a₁ now pk fee st).state).result ≠ .error .alreadyExists := by
  obtain ⟨hr1, _, _, hl1, _⟩ := apiStore_ok data a₁ now pk fee st h1 h2 h3 h4
  have h5b : ledgerLookup (apiStore data a₁ now pk fee st).state.ledger a₂ = none := by
    rw [hl1, ledgerLookup_cons_ne _ _ _ _ h6]
    exact h5
  obtain ⟨hr2, _, _, _, _⟩ :=
    apiStore_ok data a₂ now pk fee (apiStore data a₁ now pk fee st).state h1 h2 h3 h5b
  refine ⟨hr1, hr2, ?_⟩
  intro hc
  rw [hc] at hr2
  simp [Except.map] at hr2

/-- Witness for claim C3: storing the base64 input aGVsbG8= twice with fresh
addresses 1 and 2 gives two successes and no AlreadyExists on the second. -/
theorem c3_witness :
    ((apiStore [97, 71, 86, 115, 98, 71, 56, 61] 1 0 (List.replicate 32 0) 5
        ⟨[], []⟩).result.map fun r => r.recordAddress) = .ok 1
    ∧ ((apiStore [97, 71, 86, 115, 98, 71, 56, 61] 2 0 (List.replicate 32 0) 5
        (apiStore [97, 71, 86, 115, 98, 71, 56, 61] 1 0 (List.replicate 32 0) 5
          ⟨[], []⟩).state).result.map fun r => r.recordAddress) = .ok 2
    ∧ (apiStore [97, 71, 86, 115, 98, 71, 56, 61] 2 0 (List.replicate 32 0) 5
        (apiStore [97, 71, 86, 115, 98, 71, 56, 61] 1 0 (List.replicate 32 0) 5
          ⟨[], []⟩).state).result ≠ .error .alreadyExists :=
  c3_duplicate_store_succeeds_twice
    [97, 71, 86, 115, 98, 71, 56, 61] 1 2 0 (List.replicate 32 0) 5 ⟨[], []⟩
    (by decide) (by decide) (by decide) (by decide) (by decide) (by decide)

/-- Claim C4: after a successful store the fingerprint was claimed to be a
member of the Lookup Cache.  The store route never inserts into
`uploadedSignatures`: a successful store leaves the cache unchanged, so with
an initially empty cache the stored fingerprint is not in the cache. -/
theorem c4_cache_never_populated_by_store
    (data : List Nat) (a : Nat) (now : Int) (pk : List Nat) (fee : Nat) (st : ServerState)
    (h1 : data.length ≤ 200) (h2 : b64decode data ≠ []) (h3 : (b64decode data).length ≤ 200)
    (h4 : ledgerLookup st.ledger a = none) (h0 : st.uploadedSignatures = []) :
    ((apiStore data a now pk fee st).result.map fun r => r.recordAddress) = .ok a
    ∧ (apiStore data a now pk fee st).state.uploadedSignatures = st.uploadedSignatures
    ∧ md5Hash (b64decode data) ∉ (apiStore data a now pk fee st).state.uploadedSignatures := by
  obtain ⟨hr, _, hc, _, _⟩ := apiStore_ok data a now pk fee st h1 h2 h3 h4
  refine ⟨hr, hc, ?_⟩
  rw [hc, h0]
  simp

/-- Witness for claim C4: a successful store of the base64 input aGVsbG8=
starting from the empty cache leaves the cache empty, so the fingerprint of
the decoded string is not in it. -/
theorem c4_witness :
    ((apiStore [97, 71, 86, 115, 98, 71, 56, 61] 1 0 (List.replicate 32 0) 5
        ⟨[], []⟩).result.map fun r => r.recordAddress) = .ok 1
    ∧ (apiStore [97, 71, 86, 115, 98, 71, 56, 61] 1 0 (List.replicate 32 0) 5
        ⟨[], []⟩).state.uploadedSignatures = ServerState.uploadedSignatures ⟨[], []⟩
    ∧ md5Hash (b64decode [97, 71, 86, 115, 98, 71, 56, 61]) ∉
        (apiStore [97, 71, 86, 115, 98, 71, 56, 61] 1 0 (List.replicate 32 0) 5
          ⟨[], []⟩).state.uploadedSignatures :=
  c4_cache_never_populated_by_store
    [97, 71, 86, 115, 98, 71, 56, 61] 1 0 (List.replicate 32 0) 5 ⟨[], []⟩
    (by decide) (by decide) (by decide) (by decide) (by decide)

/-- Counterexample to claim C5: a record for the string consisting of the
byte 0x61 is present on the ledger, its fingerprint is absent from the
(empty) cache — a freshly started process — and yet query-by-string answers
exists=false instead of falling back to the scan. -/
theorem c5_counterexample_cache_miss_short_circuits :
    apiQuery [97] []
      [(7, encodeRecord ⟨[97], specFingerprint [97], 0, List.replicate 32 0, 5⟩)]
      = some .notFound := by decide

/-- Claim C5 (amended): the Lookup Cache is a correctness gate, not a mere
optimization: whenever the computed fingerprint of the query string is
absent from the cache, query-by-string reports exists=false without
contacting the Ledger at all — the full scan runs only on a cache hit, so a
freshly started process reports exists=false for every string anchored in
prior sessions. -/
theorem c5_amended_cache_miss_reports_not_found
    (s : List Nat) (cache : List (List Nat)) (accounts : List (Nat × List Nat))
    (h : md5Hash s ∉ cache) :
    apiQuery s cache accounts = some .notFound := by
  simp [apiQuery, h]

/-- Witness for the amended claim C5: with an empty cache, querying the
string of byte 0x61 against a ledger that holds a record for byte 0x62
answers exists=false. -/
theorem c5_witness :
    apiQuery [97] []
      [(9, encodeRecord ⟨[98], specFingerprint [98], 0, List.replicate 32 0, 5⟩)]
      = some .notFound :=
  c5_amended_cache_miss_reports_not_found [97] []
    [(9, encodeRecord ⟨[98], specFingerprint [98], 0, List.replicate 32 0, 5⟩)]
    (by decide)

set_option maxRecDepth 100000 in
/-- Counterexample to claim C6: a 200-byte input (200 times the byte 0x41),
submitted base64-encoded as the API requires (268 characters), is rejected
with StringTooLong instead of being accepted — the route checks the length
of the still-encoded field against 200. -/
theorem c6_counterexample_200_byte_input_rejected :
    (apiStore ((List.replicate 66 [81, 85, 70, 66]).flatten ++ [81, 85, 69, 61])
        1 0 (List.replicate 32 0) 5 ⟨[], []⟩).result = .error .stringTooLong
    ∧ b64decode ((List.replicate 66 [81, 85, 70, 66]).flatten ++ [81, 85, 69, 61])
        = List.replicate 200 65 := by decide

/-- Claim C6 (amended): before any Ledger interaction the store route checks
only that the raw submitted field is at most 200 units long (longer →
StringTooLong with no side effects); it performs no empty-input pre-check,
so a zero-length input is submitted to the Ledger and the EmptyString error
surfaces from the on-chain program after the Ledger was contacted; and since
clients must submit the string base64-encoded, a 200-byte string (268
encoded characters) is rejected by the raw-length check rather than
accepted. -/
theorem c6_amended_only_raw_length_checked_before_ledger
    (data data₂ : List Nat) (a : Nat) (now : Int) (pk : List Nat) (fee : Nat)
    (st : ServerState)
    (h1 : data.length ≤ 200) (h2 : b64decode data = []) (h3 : data₂.length > 200) :
    (apiStore data a now pk fee st).result = .error .emptyString
    ∧ (apiStore data a now pk fee st).ledgerTouched = true
    ∧ (apiStore data a now pk fee st).state = st
    ∧ apiStore data₂ a now pk fee st = ⟨.error .stringTooLong, st, false⟩ := by
  have hn1 : ¬ data.length > 200 := by omega
  have hch : chainStoreString a (b64decode data) now pk fee st.ledger = .error .emptyString := by
    unfold chainStoreString
    rw [if_pos (by rw [h2]; rfl)]
  refine ⟨?_, ?_, ?_, ?_⟩
  · unfold apiStore
    rw [if_neg hn1]
    simp only [hch]
  · unfold apiStore
    rw [if_neg hn1]
    simp only [hch]
  · unfold apiStore
    rw [if_neg hn1]
    simp only [hch]
  · unfold apiStore
    rw [if_pos h3]

set_option maxRecDepth 100000 in
/-- Witness for the amended claim C6: the empty input yields EmptyString
after touching the ledger and leaves the state unchanged, while a raw field
of 201 bytes is rejected with StringTooLong before touching the ledger. -/
theorem c6_witness :
    (apiStore [] 1 0 (List.replicate 32 0) 5 ⟨[], []⟩).result = .error .emptyString
    ∧ (apiStore [] 1 0 (List.replicate 32 0) 5 ⟨[], []⟩).ledgerTouched = true
    ∧ (apiStore [] 1 0 (List.replicate 32 0) 5 ⟨[], []⟩).state = ⟨[], []⟩
    ∧ apiStore (List.replicate 201 65) 1 0 (List.replicate 32 0) 5 ⟨[], []⟩
        = ⟨.error .stringTooLong, ⟨[], []⟩, false⟩ :=
  c6_amended_only_raw_length_checked_before_ledger
    [] (List.replicate 201 65) 1 0 (List.replicate 32 0) 5 ⟨[], []⟩
    (by decide) (by decide) (by decide)

set_option maxRecDepth 100000 in
/-- Counterexample to claim C7: a 376-byte buffer whose string_length field
is 300 — far above the claimed 200 bound — decodes to a fully populated
record with a 300-byte string instead of yielding CorruptRecord. -/
theorem c7_counterexample_overlong_string_decoded :
    ((decodeRecordByAddress (stringRecordDiscriminator ++ (u32le 300 ++
        (List.replicate 300 66 ++ (List.replicate 16 1 ++ (i64le 0 ++
        (List.replicate 32 2 ++ u64le 5))))))).map fun r => r.originalString.length)
      = some 300 := by decide

/-- Claim C7 (amended): the by-address decode validates, in order, total
length at least 76, string_length at most 1000 (not 200), and
string_length + 76 at most the total length; any violation yields
CorruptRecord and otherwise the record is fully populated (string of exactly
string_length bytes, 16-byte signature, 32-byte owner). -/
theorem c7_amended_decode_checks (d : List Nat) :
    ((decodeRecordByAddress d).isSome = true ↔
      76 ≤ d.length ∧ readU32LE d 8 ≤ 1000 ∧ readU32LE d 8 + 76 ≤ d.length)
    ∧ (decodeRecordByAddress d).elim True (fun r =>
        r.originalString.length = readU32LE d 8
        ∧ r.signature.length = 16 ∧ r.owner.length = 32) := by
  by_cases hlen : d.length < 8 + 4 + 16 + 8 + 32 + 8
  · constructor
    · simp only [decodeRecordByAddress, if_pos hlen]
      simp only [Option.isSome_none, Bool.false_eq_true, false_iff]
      omega
    · simp only [decodeRecordByAddress, if_pos hlen, Option.elim_none]
  · by_cases hg : readU32LE d 8 > 1000 ∨ readU32LE d 8 + 12 > d.length - 64
    · constructor
      · simp only [decodeRecordByAddress, if_neg hlen, if_pos hg]
        simp only [Option.isSome_none, Bool.false_eq_true, false_iff]
        omega
      · simp only [decodeRecordByAddress, if_neg hlen, if_pos hg, Option.elim_none]
    · have hbound : readU32LE d 8 ≤ 1000 ∧ readU32LE d 8 + 76 ≤ d.length := by omega
      constructor
      · simp only [decodeRecordByAddress, if_neg hlen, if_neg hg]
        simp only [Option.isSome_some, true_iff]
        exact ⟨by omega, hbound.1, hbound.2⟩
      · simp only [decodeRecordByAddress, if_neg hlen, if_neg hg, Option.elim_some]
        refine ⟨?_, ?_, ?_⟩
        · simp only [List.length_take, List.length_drop]
          omega
        · simp only [List.length_take, List.length_drop]
          omega
        · simp only [List.length_take, List.length_drop]
          omega

/-- Claim C9: in the query-by-string full-scan path a stored record is
matched solely by equality of its stored 16-byte fingerprint with the one
computed from the queried string — the stored string is never compared.  For
any strings s and t whose fingerprints are equal, querying s over a ledger
holding the record stored for t (with the fingerprint in the cache) reports
exists=true and returns t's record, with t's string, whether or not t equals
s. -/
theorem c9_scan_matches_fingerprint_never_string
    (s t : List Nat) (pk : Nat) (ts : Int) (ow : List Nat) (fee : Nat)
    (hcoll : md5Hash s = md5Hash t)
    (ht : t.length ≤ 200) (how : ow.length = 32) (hfee : fee < 2 ^ 64)
    (hts1 : -(2 ^ 63) ≤ ts) (hts2 : ts < 2 ^ 63) :
    apiQuery s [md5Hash s] [(pk, encodeRecord ⟨t, md5Hash t, ts, ow, fee⟩)]
      = some (.found ⟨pk, ts, ow, fee, t⟩) := by
  have hsig : (md5Hash t).length = 16 := md5Hash_length t
  have hL : t.length < 2 ^ 32 := by omega
  have hstr : readU32LE (encodeRecord ⟨t, md5Hash t, ts, ow, fee⟩) 8 = t.length :=
    readU32LE_encodeRecord _ hL
  have hlen : (encodeRecord ⟨t, md5Hash t, ts, ow, fee⟩).length = 76 + t.length := by
    rw [encodeRecord_length]
    show 12 + t.length + (md5Hash t).length + 8 + ow.length + 8 = 76 + t.length
    rw [hsig, how]
    omega
  have hps : ((encodeRecord ⟨t, md5Hash t, ts, ow, fee⟩).drop (12 + t.length)).take 16
      = md5Hash t := parse_sig ⟨t, md5Hash t, ts, ow, fee⟩ hsig
  have hpt : readI64LE (encodeRecord ⟨t, md5Hash t, ts, ow, fee⟩) (12 + t.length + 16) = ts :=
    parse_ts ⟨t, md5Hash t, ts, ow, fee⟩ hsig hts1 hts2
  have hpo : ((encodeRecord ⟨t, md5Hash t, ts, ow, fee⟩).drop (12 + t.length + 24)).take 32
      = ow := parse_owner ⟨t, md5Hash t, ts, ow, fee⟩ hsig how
  have hpc : readU64LE (encodeRecord ⟨t, md5Hash t, ts, ow, fee⟩) (12 + t.length + 56) = fee :=
    parse_cost ⟨t, md5Hash t, ts, ow, fee⟩ hsig how hfee
  have hpstr : ((encodeRecord ⟨t, md5Hash t, ts, ow, fee⟩).drop 12).take t.length = t :=
    parse_str ⟨t, md5Hash t, ts, ow, fee⟩
  simp only [apiQuery]
  rw [if_pos (List.mem_singleton.mpr rfl)]
  rw [hcoll]
  simp only [scanAccounts, hstr, hlen]
  rw [if_neg (by omega : ¬ (76 + t.length < 8 + 4 + 16 + 8 + 32 + 8))]
  rw [if_neg (by omega : ¬ (t.length > 200 ∨ t.length + 12 > 76 + t.length))]
  rw [hps, if_pos rfl]
  rw [if_pos (by omega : 12 + t.length + 64 ≤ 76 + t.length)]
  rw [hpt, hpo, hpc, hpstr]

/-- Witness for claim C9: querying the byte string 0x61 with its own
fingerprint cached against a ledger holding the stored record for 0x61
returns that record via the fingerprint comparison. -/
theorem c9_witness :
    apiQuery [97] [md5Hash [97]]
      [(7, encodeRecord ⟨[97], md5Hash [97], 3, List.replicate 32 4, 5⟩)]
      = some (.found ⟨7, 3, List.replicate 32 4, 5, [97]⟩) :=
  c9_scan_matches_fingerprint_never_string [97] [97] 7 3 (List.replicate 32 4) 5
    rfl (by decide) (by decide) (by decide) (by decide) (by decide)

/-- Claim C10: the store route base64-decodes the submitted data before
fingerprinting and storing: on success both the persisted record's string
and the response's originalString equal the base64 decoding of the input —
not the input itself whenever the two differ — while the query-by-string
route hashes its (URI-decoded) input directly without any base64 decoding. -/
theorem c10_store_decodes_base64_query_does_not
    (data : List Nat) (a : Nat) (now : Int) (pk : List Nat) (fee : Nat) (st : ServerState)
    (h1 : data.length ≤ 200) (h2 : b64decode data ≠ []) (h3 : (b64decode data).length ≤ 200)
    (h4 : ledgerLookup st.ledger a = none) (h5 : b64decode data ≠ data) :
    ((apiStore data a now pk fee st).result.map fun r => r.originalString)
        = .ok (b64decode data)
    ∧ ((apiStore data a now pk fee st).result.map fun r => r.originalString) ≠ .ok data
    ∧ ledgerLookup (apiStore data a now pk fee st).state.ledger a
        = some (encodeRecord ⟨b64decode data, specFingerprint (b64decode data), now, pk, fee⟩)
    ∧ (∀ cache accounts, apiQuery data cache accounts
        = if md5Hash data ∈ cache then scanAccounts (md5Hash data) accounts
          else some .notFound) := by
  obtain ⟨_, ho, _, hl, _⟩ := apiStore_ok data a now pk fee st h1 h2 h3 h4
  refine ⟨ho, ?_, ?_, fun _ _ => rfl⟩
  · rw [ho]
    simp [h5]
  · rw [hl, ledgerLookup_cons_self]

/-- Witness for claim C10: storing the base64 input aGVsbG8= persists and
returns the decoded string hello, which differs from the submitted input. -/
theorem c10_witness :
    ((apiStore [97, 71, 86, 115, 98, 71, 56, 61] 1 0 (List.replicate 32 0) 5
        ⟨[], []⟩).result.map fun r => r.originalString)
        = .ok (b64decode [97, 71, 86, 115, 98, 71, 56, 61])
    ∧ ((apiStore [97, 71, 86, 115, 98, 71, 56, 61] 1 0 (List.replicate 32 0) 5
        ⟨[], []⟩).result.map fun r => r.originalString)
        ≠ .ok [97, 71, 86, 115, 98, 71, 56, 61]
    ∧ ledgerLookup (apiStore [97, 71, 86, 115, 98, 71, 56, 61] 1 0 (List.replicate 32 0) 5
        ⟨[], []⟩).state.ledger 1
        = some (encodeRecord ⟨b64decode [97, 71, 86, 115, 98, 71, 56, 61],
            specFingerprint (b64decode [97, 71, 86, 115, 98, 71, 56, 61]),
            0, List.replicate 32 0, 5⟩)
    ∧ (∀ cache accounts, apiQuery [97, 71, 86, 115, 98, 71, 56, 61] cache accounts
        = if md5Hash [97, 71, 86, 115, 98, 71, 56, 61] ∈ cache
          then scanAccounts (md5Hash [97, 71, 86, 115, 98, 71, 56, 61]) accounts
          else some .notFound) :=
  c10_store_decodes_base64_query_does_not
    [97, 71, 86, 115, 98, 71, 56, 61] 1 0 (List.replicate 32 0) 5 ⟨[], []⟩
    (by decide) (by decide) (by decide) (by decide) (by decide)

end OracleSolana
